import Mathlib

set_option autoImplicit false

/-
  Verification of the volume / plugin core of the ClusterHQ docker-plugins
  repository.  The repository contains two generations of most subsystems:

  * a legacy generation: `daemon/volumes.go` (createVolumes, parseBindMountSpec,
    setupMounts with lexicographic mount ordering) and the `volumes` package in
    `docker/daemon.go` (Repository.FindOrCreateVolume / Get / Delete), plus
    `plugins/plugins.go` and `plugins/repository.go`;

  * a newer generation: `registerMountPoints` / `parseBindMount` (part_004),
    `setupMounts` / `sortMounts` (part_005) and the alternative plugins
    package (part_007, part_012).

  Both generations are embedded below, named after their source symbols, and
  the stated properties are settled against them.
-/

namespace DockerPlugins

/-! ## Go string and path primitives

`strings.Split`, `strings.SplitN(_, _, 2)` and `filepath.Clean` (unix rules),
modelled on `List Char` so that everything computes by `decide`/`rfl`. -/

/-- Model of Go `strings.Split(s, string(c))`: split a character list at every
occurrence of `c`.  Always returns at least one (possibly empty) chunk. -/
def splitChar (c : Char) : List Char → List (List Char)
  | [] => [[]]
  | a :: rest =>
    match splitChar c rest with
    | [] => [[]]
    | g :: gs => if a = c then [] :: g :: gs else (a :: g) :: gs

/-- Model of Go `strings.SplitN(s, string(c), 2)`: split at the first
occurrence of `c` only. -/
def splitFirst (c : Char) (s : List Char) : List (List Char) :=
  let pre := s.takeWhile (fun a => a ≠ c)
  let post := s.dropWhile (fun a => a ≠ c)
  match post with
  | [] => [pre]
  | _ :: tail => [pre, tail]

/-- Join chunks with a separator character (inverse direction of `splitChar`,
used to rebuild a cleaned path). -/
def joinChar (c : Char) : List (List Char) → List Char
  | [] => []
  | [g] => g
  | g :: gs => g ++ c :: joinChar c gs

/-- One step of Go `filepath.Clean`'s element processing: skip empty and `.`
elements; `..` pops the last real element (or is dropped at the root, or kept
when the path is relative and begins with `..`s); anything else is pushed.
The accumulator holds the output elements in reverse. -/
def cleanStep (rooted : Bool) (stack : List (List Char)) (comp : List Char) :
    List (List Char) :=
  if comp = [] ∨ comp = ['.'] then stack
  else if comp = ['.', '.'] then
    match stack with
    | [] => if rooted then [] else [['.', '.']]
    | top :: rest => if top = ['.', '.'] then comp :: stack else rest
  else comp :: stack

/-- Model of Go `filepath.Clean` (unix): collapse repeated separators,
eliminate `.` elements, resolve `..` elements, return `.` for an empty
relative result and `/` for an empty rooted result. -/
def cleanList (s : List Char) : List Char :=
  let rooted := s.head? = some '/'
  let body := joinChar '/' ((splitChar '/' s).foldl (cleanStep rooted) []).reverse
  if rooted then '/' :: body
  else if body = [] then ['.'] else body

/-- Model of Go `filepath.Clean` on `String`. -/
def filepathClean (s : String) : String := ⟨cleanList s.data⟩

/-- Model of Go `filepath.IsAbs` (unix): the path starts with `/`. -/
def filepathIsAbs (s : String) : Bool := s.data.head? = some '/'

/-- Number of path components as counted by `sortMounts` in part_005:
`len(strings.Split(filepath.Clean(dest), "/"))`. -/
def numParts (dest : String) : Nat := (splitChar '/' (cleanList dest.data)).length

/-- Go byte-wise string comparison `a <= b`, as used by `sort.Strings`
(paths here are ASCII, so comparing code points matches comparing bytes). -/
def goStrLeB : List Char → List Char → Bool
  | [], _ => true
  | _ :: _, [] => false
  | a :: as, b :: bs =>
    if a.val < b.val then true
    else if b.val < a.val then false
    else goStrLeB as bs

/-- Lexicographic order on strings used by `sort.Strings`. -/
def goStrLe (a b : String) : Prop := goStrLeB a.data b.data = true

instance goStrLe.decidableRel : DecidableRel goStrLe := by
  intro a b
  unfold goStrLe
  infer_instance

/-! ## Go map model

Go maps of string keys are modelled as association lists with
replace-or-append insertion, so that a map never holds two entries with the
same key and insertion order is observable where a claim needs it. -/

/-- Lookup in the association-list model of a Go map. -/
def alLookup {β : Type} (k : String) : List (String × β) → Option β
  | [] => none
  | (k', v) :: rest => if k' = k then some v else alLookup k rest

/-- Insertion (`m[k] = v`) in the association-list model of a Go map:
replace an existing entry with the same key, otherwise append. -/
def alInsert {β : Type} (k : String) (v : β) : List (String × β) → List (String × β)
  | [] => [(k, v)]
  | (k', v') :: rest => if k' = k then (k, v) :: rest else (k', v') :: alInsert k v rest

/-- Deletion (`delete(m, k)`) in the association-list model of a Go map. -/
def alErase {β : Type} (k : String) : List (String × β) → List (String × β)
  | [] => []
  | (k', v') :: rest => if k' = k then rest else (k', v') :: alErase k rest

/-- The keys of the modelled map are pairwise distinct. -/
def keysNodup {β : Type} (m : List (String × β)) : Prop := (m.map Prod.fst).Nodup

/-! ## Shared mount-spec parsing

`validMountMode` and the volumes-from parser appear verbatim in both
`daemon/volumes.go` (`parseVolumesFromSpec`) and part_004 (`parseVolumesFrom`);
they are embedded once. -/

/-- Model of `validMountMode` (daemon/volumes.go lines 233-240 and part_004
lines 98-104): the mode map contains exactly `rw` and `ro`. -/
def validMountMode (mode : String) : Bool := mode = "rw" || mode = "ro"

/-- Errors of the volumes-from spec parser. -/
inductive VolumesFromErr
  | malformed (spec : String)
  | invalidMode (mode : String)
deriving DecidableEq

/-- Model of `parseVolumesFromSpec` (daemon/volumes.go lines 214-231, identical
to `parseVolumesFrom` in part_004): split at the first `:`; the mode defaults
to `rw` and, when present, must pass `validMountMode`. -/
def parseVolumesFromSpec (spec : String) : Except VolumesFromErr (String × String) :=
  match (splitFirst ':' spec.data).map (fun l => String.mk l) with
  | [] => .error (.malformed spec)
  | [id] => .ok (id, "rw")
  | id :: mode :: _ =>
    if validMountMode mode then .ok (id, mode) else .error (.invalidMode mode)

/-- Model of `execdriver.Mount`, the record handed to the low-level runtime by
both generations of `setupMounts`. -/
structure ExecMount where
  Source : String
  Destination : String
  Writable : Bool
  Private : Bool
deriving DecidableEq

namespace LegacyDaemon

/-! ## Legacy resolver: `daemon/volumes.go`

`createVolumes` builds a destination-keyed `mounts` map in three phases
(config `Volumes`, then `Binds`, then `VolumesFrom`) and only afterwards
applies the map to the container, so the map built by the three phases is the
resolved mount-point set of this generation. -/

/-- Model of the `volumeMount` record of daemon/volumes.go lines 20-26. -/
structure VolumeMount where
  toPath : String
  fromPath : String
  writable : Bool
  copyData : Bool
  fromContainer : String
deriving DecidableEq

/-- Errors of `parseBindMountSpec`. -/
inductive BindSpecErr
  | invalidSpec (spec : String)
  | nonAbsolutePath (path : String)
deriving DecidableEq

/-- Model of `parseBindMountSpec` (daemon/volumes.go lines 189-212): split on
`:`; two parts default to writable, three parts set writable to
`validMountMode(mode) && mode == "rw"` (note: an invalid third part yields a
read-only mount, it is not rejected); any other part count is an invalid
specification; the source path must be absolute; both paths are cleaned. -/
def parseBindMountSpec (spec : String) : Except BindSpecErr (String × String × Bool) :=
  match (splitChar ':' spec.data).map (fun l => String.mk l) with
  | [p, t] => finish p t true
  | [p, t, m] => finish p t (validMountMode m && m = "rw")
  | _ => .error (.invalidSpec spec)
where
  finish (path toPath : String) (writable : Bool) : Except BindSpecErr (String × String × Bool) :=
    if filepathIsAbs path then .ok (filepathClean path, filepathClean toPath, writable)
    else .error (.nonAbsolutePath path)

/-- Errors of `createVolumes`. -/
inductive CreateVolumesErr
  | fileExists
  | bindSpec (e : BindSpecErr)
  | duplicateMount (toPath : String)
  | volumesFromSpec (e : VolumesFromErr)
  | peerNotFound (id : String)
deriving DecidableEq

/-- A peer container as consumed by `createVolumes`' volumes-from phase:
its `Volumes` (destination → host path) and `VolumesRW` maps. -/
structure PeerContainer where
  volumes : List (String × String)
  volumesRW : List (String × Bool)
deriving DecidableEq

/-- Model of `Container.volumeMounts` (daemon/volumes.go lines 280-294): one
`volumeMount` per entry of the peer's `Volumes` map whose volume is still
registered (`daemon.volumes.Get(path) != nil`, abstracted as `volExists`);
`writable` is the peer's recorded `VolumesRW` flag (Go zero value `false`). -/
def volumeMounts (volExists : String → Bool) (c : PeerContainer) : List VolumeMount :=
  c.volumes.filterMap fun tp =>
    if volExists tp.2 then
      some { toPath := tp.1, fromPath := tp.2,
             writable := (alLookup tp.1 c.volumesRW).getD false,
             copyData := false, fromContainer := "" }
    else none

/-- Phase 1 of `createVolumes` (lines 45-65): for each config volume path,
clean it, skip it when the container already has a volume there, fail with
`ErrFileExists` when the container-side path is an existing regular file,
otherwise record a writable anonymous mount.  `statIsDir path` abstracts
`os.Stat(filepath.Join(container.basefs, path))`: `none` when the path does
not exist, otherwise `some IsDir`. -/
def applyConfigVolumes (statIsDir : String → Option Bool)
    (containerVolumes : List (String × String))
    (mounts : List (String × VolumeMount)) (paths : List String) :
    Except CreateVolumesErr (List (String × VolumeMount)) :=
  paths.foldlM
    (fun ms path0 =>
      let path := filepathClean path0
      if (alLookup path containerVolumes).isSome then .ok ms
      else
        match statIsDir path with
        | some false => .error .fileExists
        | _ =>
          .ok (alInsert path
            { toPath := path, fromPath := "", writable := true, copyData := true,
              fromContainer := "" } ms))
    mounts

/-- Phase 2 of `createVolumes` (lines 67-85): parse each bind spec, reject a
destination already seen in `Binds` (`Duplicate volume mount`), and insert. -/
def applyBinds (binds : List String) (mounts : List (String × VolumeMount)) :
    Except CreateVolumesErr (List (String × VolumeMount)) := do
  let acc ← binds.foldlM
    (fun (acc : List String × List (String × VolumeMount)) spec =>
      match parseBindMountSpec spec with
      | .error e => .error (.bindSpec e)
      | .ok (fromPath, toPath, w) =>
        if toPath ∈ acc.1 then .error (.duplicateMount toPath)
        else
          .ok (toPath :: acc.1,
            alInsert toPath
              { toPath := toPath, fromPath := fromPath, writable := w,
                copyData := false, fromContainer := "" } acc.2))
    ([], mounts)
  .ok acc.2

/-- The update `createVolumes` applies to each inherited peer mount
(lines 103-107): `mnt.writable = mnt.writable && (mode == "rw")` and
`mnt.from = cID`. -/
def applyPeerMount (cID mode : String) (m : VolumeMount) : VolumeMount :=
  { m with writable := m.writable && (mode = "rw"), fromContainer := cID }

/-- Inserting every (updated) peer mount under its destination. -/
def applyPeerMounts (cID mode : String) (peer : List VolumeMount)
    (mounts : List (String × VolumeMount)) : List (String × VolumeMount) :=
  peer.foldl (fun ms m => alInsert m.toPath (applyPeerMount cID mode m) ms) mounts

/-- Phase 3 of `createVolumes` (lines 87-108): parse each volumes-from spec,
skip peers already applied, fail when the peer container is unknown, and
insert every peer mount (overwriting any prior entry at its destination). -/
def applyVolumesFrom (getContainer : String → Option PeerContainer)
    (volExists : String → Bool) (applied : List String) (vfrom : List String)
    (mounts : List (String × VolumeMount)) :
    Except CreateVolumesErr (List (String × VolumeMount)) :=
  vfrom.foldlM
    (fun ms spec =>
      match parseVolumesFromSpec spec with
      | .error e => .error (.volumesFromSpec e)
      | .ok (cID, mode) =>
        if cID ∈ applied then .ok ms
        else
          match getContainer cID with
          | none => .error (.peerNotFound cID)
          | some c => .ok (applyPeerMounts cID mode (volumeMounts volExists c) ms))
    mounts

/-- The mounts map built by `createVolumes` (daemon/volumes.go lines 42-108):
config volumes, then binds, then volumes-from, each later phase overwriting
earlier entries at the same destination. -/
def createVolumesMounts (statIsDir : String → Option Bool)
    (containerVolumes : List (String × String))
    (getContainer : String → Option PeerContainer) (volExists : String → Bool)
    (applied : List String) (configVolumes : List String)
    (binds vfrom : List String) :
    Except CreateVolumesErr (List (String × VolumeMount)) := do
  let m1 ← applyConfigVolumes statIsDir containerVolumes [] configVolumes
  let m2 ← applyBinds binds m1
  applyVolumesFrom getContainer volExists applied vfrom m2

/-- Model of `Container.sortedVolumeMounts` (daemon/volumes.go lines 138-147):
the keys of `container.Volumes` sorted lexicographically (`sort.Strings`). -/
def sortedVolumeMounts (volumes : List (String × String)) : List String :=
  List.insertionSort goStrLe (volumes.map Prod.fst)

/-- Model of the legacy `Container.setupMounts` (daemon/volumes.go lines
242-278): the user volumes in lexicographic destination order, then the
private resolv.conf / hostname / hosts mounts when their host paths are set.
The result is assigned to `container.command.Mounts`, the list handed to the
execution driver. -/
def setupMounts (volumes : List (String × String))
    (volumesRW : List (String × Bool))
    (resolvConfPath hostnamePath hostsPath : String) : List ExecMount :=
  let user := (sortedVolumeMounts volumes).map fun path =>
    { Source := (alLookup path volumes).getD "", Destination := path,
      Writable := (alLookup path volumesRW).getD false, Private := false : ExecMount }
  let m1 := if resolvConfPath ≠ "" then
    user ++ [{ Source := resolvConfPath, Destination := "/etc/resolv.conf",
               Writable := true, Private := true }] else user
  let m2 := if hostnamePath ≠ "" then
    m1 ++ [{ Source := hostnamePath, Destination := "/etc/hostname",
             Writable := true, Private := true }] else m1
  if hostsPath ≠ "" then
    m2 ++ [{ Source := hostsPath, Destination := "/etc/hosts",
             Writable := true, Private := true }] else m2

end LegacyDaemon

namespace NewDaemon

/-! ## New resolver: part_004 (`registerMountPoints`) and part_005
(`sortMounts`) -/

/-- Model of the `MountPoint` record of part_004 lines 16-23.  `Volume` holds
an abstract handle for the attached `volume.Volume` (identity is all the
claims need). -/
structure MountPoint where
  Name : String
  Destination : String
  Driver : String
  RW : Bool
  Volume : Option Nat
  source : String
deriving DecidableEq

/-- Errors of `registerMountPoints`. -/
inductive RegisterErr
  | invalidSpec (spec : String)
  | volumesFromSpec (e : VolumesFromErr)
  | containerNotFound (id : String)
  | duplicateBind (dest : String)
  | createVolumeFailed (name driver : String)
deriving DecidableEq

/-- Model of `parseBindMount` (part_004 lines 53-78): split on `:`; two parts
keep the default `RW = true`, three parts set `RW` to
`validMountMode(mode) && mode == "rw"` (an invalid third part silently yields
a read-only mount); other part counts are invalid.  An absolute first part is
a host-path bind (`source`), otherwise it names a volume owned by the
container's configured volume driver.  The destination is cleaned. -/
def parseBindMount (volumeDriver : String) (spec : String) :
    Except RegisterErr MountPoint :=
  match (splitChar ':' spec.data).map (fun l => String.mk l) with
  | [a0, a1] => .ok (finish a0 a1 true)
  | [a0, a1, a2] => .ok (finish a0 a1 (validMountMode a2 && a2 = "rw"))
  | _ => .error (.invalidSpec spec)
where
  finish (a0 dest : String) (rw : Bool) : MountPoint :=
    if filepathIsAbs a0 then
      { Name := "", Destination := filepathClean dest, Driver := "", RW := rw,
        Volume := none, source := filepathClean a0 }
    else
      { Name := a0, Destination := filepathClean dest, Driver := volumeDriver,
        RW := rw, Volume := none, source := "" }

/-- A container as consumed by `registerMountPoints`: its persisted
destination-keyed mount points and its configured volume driver. -/
structure Container where
  MountPoints : List (String × MountPoint)
  VolumeDriver : String
deriving DecidableEq

/-- The mount point that the volumes-from loop of `registerMountPoints`
(part_004 lines 145-156) inserts for a peer mount `m`: `cp.RW = mode != "ro"`
— the peer's own `RW` flag is discarded — and the created volume is attached.
(The source writes through the shared pointer `cp := m`, which also mutates
the peer's record; only the inserted value matters to the resolved set.) -/
def clonePeerMount (mode : String) (v : Nat) (m : MountPoint) : MountPoint :=
  { m with RW := mode ≠ "ro", Volume := some v }

/-- The value inserted for one entry of `Binds` (part_004 lines 159-180):
the parsed bind, with a volume created and attached when the bind names a
volume and a driver.  `createVolume` abstracts `daemon.createVolume`, whose
body is not part of the sources. -/
def resolveBind (createVolume : String → String → Option Nat)
    (volumeDriver : String) (spec : String) : Except RegisterErr MountPoint := do
  let bind ← parseBindMount volumeDriver spec
  if bind.Name.length > 0 ∧ bind.Driver.length > 0 then
    match createVolume bind.Name bind.Driver with
    | none => .error (.createVolumeFailed bind.Name bind.Driver)
    | some v => .ok { bind with Volume := some v }
  else .ok bind

/-- The cleaned destination of a bind spec (the value `registerMountPoints`
keys its duplicate check on), defaulting to `""` for an unparsable spec. -/
def bindDest (volumeDriver : String) (spec : String) : String :=
  match parseBindMount volumeDriver spec with
  | .ok b => b.Destination
  | .error _ => ""

/-- The volumes-from phase of `registerMountPoints` (part_004 lines 134-157):
for each spec, parse it, resolve the peer container, and insert a clone of
every peer mount point under its destination, overwriting prior entries. -/
def applyVolumesFrom (getC : String → Option Container)
    (createVolume : String → String → Option Nat) (vfrom : List String)
    (mountPoints : List (String × MountPoint)) :
    Except RegisterErr (List (String × MountPoint)) :=
  vfrom.foldlM
    (fun ms spec =>
      match parseVolumesFromSpec spec with
      | .error e => .error (.volumesFromSpec e)
      | .ok (cID, mode) =>
        match getC cID with
        | none => .error (.containerNotFound cID)
        | some c =>
          c.MountPoints.foldlM
            (fun ms2 kv =>
              match createVolume kv.2.Name kv.2.Driver with
              | none => .error (.createVolumeFailed kv.2.Name kv.2.Driver)
              | some v =>
                .ok (alInsert (clonePeerMount mode v kv.2).Destination
                  (clonePeerMount mode v kv.2) ms2))
            ms)
    mountPoints

/-- The binds phase of `registerMountPoints` (part_004 lines 159-180):
parse each spec, reject a destination that already appeared in `Binds`
(`Duplicate bind mount`), create the named volume when needed, insert.
The inserted value is written as `resolveBind`, which re-runs the
(deterministic) parse and then performs the source's create-and-attach step,
so the behaviour matches the source's parse → duplicate check → create
order exactly. -/
def applyBinds (createVolume : String → String → Option Nat)
    (volumeDriver : String) :
    List String → List String → List (String × MountPoint) →
    Except RegisterErr (List String × List (String × MountPoint))
  | [], seen, mountPoints => .ok (seen, mountPoints)
  | spec :: rest, seen, mountPoints =>
    match parseBindMount volumeDriver spec with
    | .error e => .error e
    | .ok bind =>
      if bind.Destination ∈ seen then .error (.duplicateBind bind.Destination)
      else
        match resolveBind createVolume volumeDriver spec with
        | .error e => .error e
        | .ok rbind =>
          applyBinds createVolume volumeDriver rest (bind.Destination :: seen)
            (alInsert rbind.Destination rbind mountPoints)

/-- Model of `registerMountPoints` (part_004 lines 126-185): seed with the
container's persisted mount points, apply `VolumesFrom`, then apply `Binds`
(each phase overwriting at equal destinations); `container.MountPoints` is
replaced by the result only when every step succeeded. -/
def registerMountPoints (getC : String → Option Container)
    (createVolume : String → String → Option Nat) (container : Container)
    (vfrom binds : List String) :
    Except RegisterErr (List (String × MountPoint)) := do
  let mp1 ← applyVolumesFrom getC createVolume vfrom container.MountPoints
  let acc ← applyBinds createVolume container.VolumeDriver binds [] mp1
  .ok acc.2

/-- The comparison used by `sortMounts` (part_005 lines 1708-1719): mounts are
ordered by the number of `/`-separated parts of the cleaned destination. -/
def mountLe (a b : ExecMount) : Prop :=
  numParts a.Destination ≤ numParts b.Destination

instance mountLe.decidableRel : DecidableRel mountLe := by
  intro a b
  unfold mountLe
  infer_instance

instance mountLe.isTotal : IsTotal ExecMount mountLe :=
  ⟨fun _ _ => Nat.le_total _ _⟩

instance mountLe.isTrans : IsTrans ExecMount mountLe :=
  ⟨fun _ _ _ => Nat.le_trans⟩

/-- Model of `sortMounts` (part_005 lines 1698-1701): `sort.Sort` guarantees a
permutation ordered by `mountLe`; it is modelled by insertion sort (Go's sort
is unstable, so the order of mounts with equally deep destinations is not
specified by the source either). -/
def sortMounts (m : List ExecMount) : List ExecMount :=
  List.insertionSort mountLe m

end NewDaemon

namespace VolumesRepo

/-! ## Volume repository: the `volumes` package in `docker/daemon.go`

`filepath.EvalSymlinks` is abstracted as a host-filesystem view
`fs : String → Option String`: `none` when resolution fails (the path does not
exist), otherwise the resolved path.  `common.GenerateRandomID` is modelled by
a fresh counter (`nextId`), which is what gives each created volume its
identity. -/

/-- Model of the `Volume` record.  Its struct fields (`ID`, `Path`,
`Writable`, `IsBindMount` and the `containers` set) are those initialized by
`Repository.newVolume` (docker/daemon.go lines 313-321).
Modelled from the spec: the `Volume` methods themselves (`Containers`,
`AddContainer`, `RemoveContainer`) are not under src/; per §3, `refs` is the
set of container ids currently referencing the volume, here `containers`. -/
structure Volume where
  id : Nat
  Path : String
  Writable : Bool
  IsBindMount : Bool
  containers : List String
deriving DecidableEq

/-- The repository state: the canonical-path-keyed volume map and the fresh-id
counter standing in for `GenerateRandomID`. -/
structure Repo where
  volumes : List (String × Volume)
  nextId : Nat
deriving DecidableEq

/-- Model of `Repository.get` (docker/daemon.go lines 366-372): resolve
symlinks first — returning `nil` outright when resolution fails — then look
the cleaned result up in the map. -/
def rget (fs : String → Option String) (r : Repo) (path : String) : Option Volume :=
  match fs path with
  | none => none
  | some p => alLookup (filepathClean p) r.volumes

/-- Model of `Repository.Get` (docker/daemon.go lines 359-364), `rget` under
the repository lock. -/
def RepositoryGet (fs : String → Option String) (r : Repo) (path : String) :
    Option Volume :=
  rget fs r path

/-- Model of `Repository.add` (docker/daemon.go lines 374-381): skip when
`get(volume.Path)` already finds an entry, otherwise store the volume under
its `Path`. -/
def add (fs : String → Option String) (r : Repo) (v : Volume) : Repo :=
  if (rget fs r v.Path).isSome then r
  else { r with volumes := alInsert v.Path v r.volumes }

/-- Model of `Repository.newVolume` (docker/daemon.go lines 289-329): a
non-empty requested path makes a bind-mount volume; an empty path is replaced
by the driver-created path for the fresh id (`createNewVolumePath`, abstracted
as the total `driverPath`); the path is cleaned, then symlink-resolved with
fallback to the cleaned original; the volume is initialized and added.
On-disk initialization (`v.initialize`) is out of scope and assumed to
succeed. -/
def newVolume (fs : String → Option String) (driverPath : Nat → String)
    (r : Repo) (path : String) (writable : Bool) : Repo × Volume :=
  let isBindMount := path ≠ ""
  let id := r.nextId
  let path1 := if path = "" then driverPath id else path
  let path2 := filepathClean path1
  let path3 := match fs path2 with
    | some cleanPath => cleanPath
    | none => path2
  let v : Volume :=
    { id := id, Path := path3, Writable := writable, IsBindMount := isBindMount,
      containers := [] }
  (add fs { r with nextId := id + 1 } v, v)

/-- Model of `Repository.FindOrCreateVolume` (docker/daemon.go lines 440-486).
Each registered "volume" extension may replace the host path by a non-empty
`ModifiedHostPath` (the RPC round-trip is abstracted as a function of the path
and container id).  An empty path always creates a fresh volume; otherwise an
existing entry found by `get` is returned, else a new volume is created. -/
def FindOrCreateVolume (fs : String → Option String) (driverPath : Nat → String)
    (exts : List (String → String → String)) (r : Repo)
    (path containerId : String) (writable : Bool) : Repo × Volume :=
  let path := exts.foldl
    (fun p e => let modified := e p containerId
                if modified = "" then p else modified) path
  if path = "" then newVolume fs driverPath r path writable
  else
    match rget fs r path with
    | some v => (r, v)
    | none => newVolume fs driverPath r path writable

/-- A sequence of `FindOrCreateVolume` calls on one path, returning the final
repository and every returned volume in order. -/
def seqCalls (fs : String → Option String) (driverPath : Nat → String)
    (path : String) : List Bool → Repo → Repo × List Volume
  | [], r => (r, [])
  | w :: ws, r =>
    let rv := FindOrCreateVolume fs driverPath [] r path "" w
    let rest := seqCalls fs driverPath path ws rv.1
    (rest.1, rv.2 :: rest.2)

/-- The canonicalization rule of the specification (§4.6), as implemented by
`newVolume` lines 305-311: resolve symlinks on the cleaned path and fall back
to the cleaned original when resolution fails. -/
def canonicalOf (fs : String → Option String) (path : String) : String :=
  match fs (filepathClean path) with
  | some cleanPath => cleanPath
  | none => filepathClean path

/-- Result of `graphdriver.Driver.Remove` as observed by `Delete`. -/
inductive DriverRemoveResult
  | ok
  | notExist
  | failed
deriving DecidableEq

/-- Errors of `Repository.Delete`. -/
inductive DeleteErr
  | symlinkFailed (path : String)
  | doesNotExist (path : String)
  | inUse (path : String) (ids : List String)
  | removeAllFailed
  | driverRemoveFailed
deriving DecidableEq

/-- Model of `Repository.Delete` (docker/daemon.go lines 383-414): resolve the
path (propagating a resolution failure), look the cleaned result up, fail
`does not exist` on a miss; fail `is being used ... used by containers <ids>`
while the volume's container set is non-empty, before anything is touched;
otherwise remove the config directory, call `driver.Remove` unless the volume
is a bind mount (absorbing a not-exist failure), and drop the map entry last.
The repository resulting from each outcome is returned alongside. -/
def Delete (fs : String → Option String) (removeAll : Nat → Bool)
    (driverRemove : Nat → DriverRemoveResult) (r : Repo) (path : String) :
    Repo × Except DeleteErr Unit :=
  match fs path with
  | none => (r, .error (.symlinkFailed path))
  | some p =>
    match rget fs r (filepathClean p) with
    | none => (r, .error (.doesNotExist p))
    | some volume =>
      if volume.containers ≠ [] then
        (r, .error (.inUse volume.Path volume.containers))
      else if ¬ removeAll volume.id then (r, .error .removeAllFailed)
      else if ¬ volume.IsBindMount ∧ driverRemove volume.id = .failed then
        (r, .error .driverRemoveFailed)
      else
        ({ r with volumes := alErase volume.Path r.volumes }, .ok ())

end VolumesRepo

namespace PluginsPkg

/-! ## Plugin activation: `plugins/plugins.go` (and its twin in part_007)

`Plugin.Activate` holds the `activePlugins` mutex for its entire body, and
part_012's `get` holds the `storage` mutex for its entire body, so every
interleaving of concurrent calls is equivalent to some serialization; the
models below are those serialized steps.  The `Plugin.Activate` RPC
(`Client.Call`) is abstracted as `rpc : addr → Except error manifest`, and
`rpcCount` counts how many times it was issued. -/

/-- A plugin as held in the active map: name, address and (after activation)
the manifest's `Implements` list. -/
structure Plugin where
  Name : String
  Addr : String
  Implements : List String
deriving DecidableEq

/-- The package state: the `activePlugins` map and the count of
`Plugin.Activate` RPCs issued so far. -/
structure PState where
  active : List (String × Plugin)
  rpcCount : Nat
deriving DecidableEq

/-- Model of `Plugin.Activate` (plugins/plugins.go lines 35-65, identical in
part_007): under the `activePlugins` mutex, a plugin whose name is already
active fails with `Plugin already activated` before any RPC; otherwise the
`Plugin.Activate` RPC is issued, its manifest stored, the capability handlers
dispatched (irrelevant to the state modelled here) and the plugin recorded as
active. -/
def Activate (rpc : String → Except String (List String)) (st : PState)
    (p : Plugin) : PState × Except String Plugin :=
  if (alLookup p.Name st.active).isSome then
    (st, .error "Plugin already activated")
  else
    match rpc p.Addr with
    | .error e => ({ st with rpcCount := st.rpcCount + 1 }, .error e)
    | .ok m =>
      let p' := { p with Implements := m }
      ({ active := alInsert p.Name p' st.active, rpcCount := st.rpcCount + 1 },
        .ok p')

/-- Model of `Get` (plugins/plugins.go lines 83-99): return the cached active
plugin, else discover it in the local registry (abstracted as `registry`) and
activate it, propagating activation errors. -/
def Get (rpc : String → Except String (List String))
    (registry : String → Option Plugin) (st : PState) (name : String) :
    PState × Except String Plugin :=
  match alLookup name st.active with
  | some plugin => (st, .ok plugin)
  | none =>
    match registry name with
    | none => (st, .error "plugin not found")
    | some plugin => Activate rpc st plugin

end PluginsPkg

namespace PluginsAlt

/-! ## Plugin activation, caching variant: `get` in part_012 -/

/-- Model of `get` (part_012): the whole check-load-activate-store sequence
runs under the `storage` mutex.  A cached plugin is returned as is; otherwise
the plugin is discovered, the `Plugin.Activate` RPC issued, and the result
stored under the requested name. -/
def get (rpc : String → Except String (List String))
    (registry : String → Option PluginsPkg.Plugin) (st : PluginsPkg.PState)
    (name : String) : PluginsPkg.PState × Except String PluginsPkg.Plugin :=
  match alLookup name st.active with
  | some pl => (st, .ok pl)
  | none =>
    match registry name with
    | none => (st, .error "plugin not found")
    | some pl =>
      match rpc pl.Addr with
      | .error e => ({ st with rpcCount := st.rpcCount + 1 }, .error e)
      | .ok m =>
        let pl' := { pl with Implements := m }
        ({ active := alInsert name pl' st.active, rpcCount := st.rpcCount + 1 },
          .ok pl')

/-- Repeated `get` calls for one name, returning the final state and every
result in order. -/
def getIter (rpc : String → Except String (List String))
    (registry : String → Option PluginsPkg.Plugin) (name : String) :
    Nat → PluginsPkg.PState → PluginsPkg.PState × List (Except String PluginsPkg.Plugin)
  | 0, st => (st, [])
  | n + 1, st =>
    let first := get rpc registry st name
    let rest := getIter rpc registry name n first.1
    (rest.1, first.2 :: rest.2)

end PluginsAlt

namespace PluginsRepo

/-! ## Plugin repository: `GetPlugins`, both variants

`src/plugins/repository.go` returns an empty list (registering it as a side
effect) for an unknown kind; the second `repository.go` variant (part_012)
returns `ErrNotRegistered` instead.  Plugins themselves are opaque here
(handles). -/

/-- The error returned by the part_012 variant for an unregistered kind. -/
inductive GetPluginsErr
  | errNotRegistered
deriving DecidableEq

/-- Model of `Repository.GetPlugins` from `src/plugins/repository.go` lines
16-26: an unknown kind stores and returns an empty plugin list, with no
error. -/
def GetPlugins (plugins : List (String × List Nat)) (kind : String) :
    List (String × List Nat) × Except GetPluginsErr (List Nat) :=
  match alLookup kind plugins with
  | some l => (plugins, .ok l)
  | none => (alInsert kind [] plugins, .ok [])

/-- Model of the second `Repository.GetPlugins` variant (part_012 lines
16-22): an unknown kind fails with `ErrNotRegistered`. -/
def GetPluginsAlt (plugins : List (String × List Nat)) (kind : String) :
    Except GetPluginsErr (List Nat) :=
  match alLookup kind plugins with
  | some l => .ok l
  | none => .error .errNotRegistered

end PluginsRepo

/-! ## Association-list map lemmas -/

theorem alLookup_alInsert_self {β : Type} (k : String) (v : β) (m : List (String × β)) :
    alLookup k (alInsert k v m) = some v := by
  induction m with
  | nil => simp [alInsert, alLookup]
  | cons kv rest ih =>
    by_cases h : kv.1 = k
    · simp [alInsert, alLookup, h]
    · simpa [alInsert, alLookup, h] using ih

theorem alLookup_alInsert_ne {β : Type} {k k' : String} (hne : k' ≠ k) (v : β)
    (m : List (String × β)) : alLookup k (alInsert k' v m) = alLookup k m := by
  induction m with
  | nil => simp [alInsert, alLookup, hne]
  | cons kv rest ih =>
    by_cases h : kv.1 = k'
    · have hk : kv.1 ≠ k := by rw [h]; exact hne
      simp [alInsert, alLookup, h, hne, hk]
    · simp [alInsert, alLookup, h, ih]

theorem mem_keys_alInsert {β : Type} (x k : String) (v : β) (m : List (String × β)) :
    x ∈ (alInsert k v m).map Prod.fst ↔ x = k ∨ x ∈ m.map Prod.fst := by
  induction m with
  | nil => simp [alInsert]
  | cons kv rest ih =>
    by_cases h : kv.1 = k
    · subst h
      simp [alInsert]
    · simp only [alInsert, if_neg h, List.map_cons, List.mem_cons, ih]
      tauto

theorem keysNodup_alInsert {β : Type} (k : String) (v : β) {m : List (String × β)}
    (h : keysNodup m) : keysNodup (alInsert k v m) := by
  induction m with
  | nil => simp [alInsert, keysNodup]
  | cons kv rest ih =>
    rw [keysNodup, List.map_cons, List.nodup_cons] at h
    by_cases hk : kv.1 = k
    · rw [keysNodup, alInsert, if_pos hk, List.map_cons, List.nodup_cons]
      exact ⟨by simpa [hk] using h.1, h.2⟩
    · rw [keysNodup, alInsert, if_neg hk, List.map_cons, List.nodup_cons]
      refine ⟨fun hmem => ?_, ih h.2⟩
      rcases (mem_keys_alInsert kv.1 k v rest).mp hmem with he | hin
      · exact hk he
      · exact h.1 hin

theorem alLookup_eq_none_of_not_mem_keys {β : Type} {k : String}
    {m : List (String × β)} (h : k ∉ m.map Prod.fst) : alLookup k m = none := by
  induction m with
  | nil => rfl
  | cons kv rest ih =>
    simp only [List.map_cons, List.mem_cons, not_or] at h
    have h1 : kv.1 ≠ k := fun e => h.1 e.symm
    simp [alLookup, h1, ih h.2]

theorem alLookup_foldl_alInsert {α β : Type} (key : α → String) (val : α → β)
    (l : List α) (init : List (String × β)) (d : String) :
    alLookup d (l.foldl (fun ms x => alInsert (key x) (val x) ms) init) =
      match l.reverse.find? (fun x => key x == d) with
      | some x => some (val x)
      | none => alLookup d init := by
  induction l generalizing init with
  | nil => simp
  | cons x xs ih =>
    rw [List.foldl_cons, ih, List.reverse_cons, List.find?_append]
    cases hf : xs.reverse.find? (fun x => key x == d) with
    | some y => simp [hf, Option.orElse]
    | none =>
      by_cases hk : key x = d
      · subst hk
        simp [hf, Option.orElse, alLookup_alInsert_self]
      · have hb : (key x == d) = false := by simp [hk]
        simp [hf, Option.orElse, List.find?_cons, hb, alLookup_alInsert_ne hk]

/-! ## Claim C7 -/

theorem validMountMode_and_rw (m : String) :
    (validMountMode m && decide (m = "rw")) = decide (m = "rw") := by
  by_cases h : m = "rw" <;> simp [validMountMode, h]

/-- Claim C7 (amended): splitting a bind specification on `:` into exactly two
parts yields mode `rw`; exactly three parts yields a writable mount exactly
when the third part is `"rw"`, and a third part that is neither `"ro"` nor
`"rw"` silently yields a read-only mount rather than an error; only a part
count other than two or three fails with the invalid-specification error (a
non-absolute source path is rejected separately). -/
theorem parseBindMountSpec_cases (spec : String) :
    LegacyDaemon.parseBindMountSpec spec =
      match (splitChar ':' spec.data).map (fun l => String.mk l) with
      | [p, t] =>
        if filepathIsAbs p then
          .ok (filepathClean p, filepathClean t, true)
        else .error (.nonAbsolutePath p)
      | [p, t, m] =>
        if filepathIsAbs p then
          .ok (filepathClean p, filepathClean t, decide (m = "rw"))
        else .error (.nonAbsolutePath p)
      | _ => .error (.invalidSpec spec) := by
  unfold LegacyDaemon.parseBindMountSpec
  cases hl : (splitChar ':' spec.data).map (fun l => String.mk l) with
  | nil => rfl
  | cons p tail =>
    cases tail with
    | nil => rfl
    | cons t tail2 =>
      cases tail2 with
      | nil =>
        simp [LegacyDaemon.parseBindMountSpec.finish]
      | cons m tail3 =>
        cases tail3 with
        | nil =>
          simp [LegacyDaemon.parseBindMountSpec.finish, validMountMode_and_rw m]
        | cons r rs => rfl

/-- Claim C7, counterexample to the claim as stated: the three-part spec
`/a:/b:zz` has a mode that is neither `ro` nor `rw`, yet both parsers accept
it (as read-only) instead of failing with an invalid-specification error. -/
theorem parseBindMountSpec_accepts_invalid_mode :
    LegacyDaemon.parseBindMountSpec "/a:/b:zz" = .ok ("/a", "/b", false) ∧
    NewDaemon.parseBindMount "local" "/a:/b:zz" =
      .ok { Name := "", Destination := "/b", Driver := "", RW := false,
            Volume := none, source := "/a" } := by
  constructor <;> rfl

/-! ## Claim C9 -/

/-- Claim C9 (amended): the `GetPlugins` of src/plugins/repository.go returns
an empty list and no error for a kind with no registered plugins (storing the
empty list as a side effect); the part_012 variant instead returns
`ErrNotRegistered` (see the counterexample). -/
theorem getPlugins_unknown_kind (plugins : List (String × List Nat)) (kind : String)
    (h : alLookup kind plugins = none) :
    PluginsRepo.GetPlugins plugins kind = (alInsert kind [] plugins, .ok []) := by
  unfold PluginsRepo.GetPlugins
  rw [h]

theorem getPlugins_unknown_kind_witness :
    PluginsRepo.GetPlugins [] "volume" = ([("volume", [])], .ok []) := by
  have h := getPlugins_unknown_kind [] "volume" rfl
  simpa [alInsert] using h

/-- Claim C9, counterexample to the claim as stated: the part_012 variant of
`GetPlugins` returns `ErrNotRegistered` for a kind with no registered
plugins. -/
theorem getPluginsAlt_unknown_kind_err :
    PluginsRepo.GetPluginsAlt [] "volume" = .error .errNotRegistered := rfl

/-! ## Claim C10 -/

/-- Claim C10: when symlink resolution fails for a path (the path does not
exist on the host), `Repository.Get` returns `nil` — even though
`FindOrCreateVolume` on the very same path registers a volume under the
cleaned original path, so that registered volume is invisible to `Get`. -/
theorem repositoryGet_nil_on_unresolved_path
    (fs : String → Option String) (driverPath : Nat → String)
    (r : VolumesRepo.Repo) (p cid : String) (w : Bool)
    (h1 : fs p = none) (h2 : fs (filepathClean p) = none) (hne : p ≠ "") :
    VolumesRepo.RepositoryGet fs
        (VolumesRepo.FindOrCreateVolume fs driverPath [] r p cid w).1 p = none ∧
    alLookup (filepathClean p)
        (VolumesRepo.FindOrCreateVolume fs driverPath [] r p cid w).1.volumes =
      some (VolumesRepo.FindOrCreateVolume fs driverPath [] r p cid w).2 := by
  unfold VolumesRepo.FindOrCreateVolume VolumesRepo.newVolume VolumesRepo.add
    VolumesRepo.RepositoryGet VolumesRepo.rget
  simp [h1, h2, hne, alLookup_alInsert_self]

theorem repositoryGet_nil_on_unresolved_path_witness :
    VolumesRepo.RepositoryGet (fun _ => none)
        (VolumesRepo.FindOrCreateVolume (fun _ => none) (fun n => "/v" ++ toString n)
          [] ⟨[], 0⟩ "/a//b" "c1" true).1 "/a//b" = none ∧
    alLookup (filepathClean "/a//b")
        (VolumesRepo.FindOrCreateVolume (fun _ => none) (fun n => "/v" ++ toString n)
          [] ⟨[], 0⟩ "/a//b" "c1" true).1.volumes =
      some (VolumesRepo.FindOrCreateVolume (fun _ => none) (fun n => "/v" ++ toString n)
          [] ⟨[], 0⟩ "/a//b" "c1" true).2 :=
  repositoryGet_nil_on_unresolved_path _ _ _ _ _ _ rfl rfl (by decide)

/-! ## Claim C3 -/

/-- Claim C3: with the path resolving to a registered volume and the
filesystem/driver removal steps not failing (a not-exist result from the
driver is absorbed), `Repository.Delete` succeeds exactly when the volume's
set of referencing container ids is empty; when the set is non-empty it fails
with the in-use error carrying the volume's path and the referencing
container ids, and the repository is left unchanged. -/
theorem delete_iff_refs_empty
    (fs : String → Option String) (removeAll : Nat → Bool)
    (driverRemove : Nat → VolumesRepo.DriverRemoveResult)
    (r : VolumesRepo.Repo) (path p : String) (v : VolumesRepo.Volume)
    (hfs : fs path = some p)
    (hget : VolumesRepo.rget fs r (filepathClean p) = some v)
    (hrm : removeAll v.id = true)
    (hdr : driverRemove v.id ≠ .failed) :
    ((VolumesRepo.Delete fs removeAll driverRemove r path).2 = .ok () ↔
      v.containers = []) ∧
    (v.containers ≠ [] →
      VolumesRepo.Delete fs removeAll driverRemove r path =
        (r, .error (.inUse v.Path v.containers))) := by
  simp only [VolumesRepo.Delete, hfs, hget]
  by_cases hc : v.containers = []
  · simp [hc, hrm, hdr]
  · simp [hc]

theorem delete_iff_refs_empty_witness :
    ((VolumesRepo.Delete (fun s => if s = "/data" then some "/data" else none)
        (fun _ => true) (fun _ => .ok)
        ⟨[("/data", ⟨0, "/data", true, true, ["c1", "c2"]⟩)], 1⟩ "/data").2 = .ok () ↔
      (["c1", "c2"] : List String) = []) ∧
    ((["c1", "c2"] : List String) ≠ [] →
      VolumesRepo.Delete (fun s => if s = "/data" then some "/data" else none)
        (fun _ => true) (fun _ => .ok)
        ⟨[("/data", ⟨0, "/data", true, true, ["c1", "c2"]⟩)], 1⟩ "/data" =
        (⟨[("/data", ⟨0, "/data", true, true, ["c1", "c2"]⟩)], 1⟩,
          .error (.inUse "/data" ["c1", "c2"]))) :=
  delete_iff_refs_empty (fun s => if s = "/data" then some "/data" else none)
    (fun _ => true) (fun _ => .ok)
    ⟨[("/data", ⟨0, "/data", true, true, ["c1", "c2"]⟩)], 1⟩ "/data" "/data"
    ⟨0, "/data", true, true, ["c1", "c2"]⟩ (by decide) (by decide) rfl (by decide)

/-! ## Claim C5 -/

/-- Claim C5 (amended): the list produced by part_005's `sortMounts` is a
permutation of its input sorted by the number of path components of each
destination, ascending; consequently any mount whose destination has strictly
fewer components than another's — in particular a parent directory other than
`/` versus any path below it — appears strictly earlier.  (The legacy
`setupMounts` of daemon/volumes.go instead orders destinations
lexicographically; see the counterexample.) -/
theorem sortMounts_depth_ordered (l : List ExecMount) :
    (NewDaemon.sortMounts l).Perm l ∧
    List.Sorted NewDaemon.mountLe (NewDaemon.sortMounts l) ∧
    ∀ (i j : Nat) (hi : i < (NewDaemon.sortMounts l).length)
      (hj : j < (NewDaemon.sortMounts l).length),
      numParts ((NewDaemon.sortMounts l).get ⟨i, hi⟩).Destination <
        numParts ((NewDaemon.sortMounts l).get ⟨j, hj⟩).Destination → i < j := by
  refine ⟨List.perm_insertionSort _ l, List.sorted_insertionSort _ l, ?_⟩
  intro i j hi hj hlt
  rcases Nat.lt_trichotomy i j with h | h | h
  · exact h
  · subst h
    exact absurd hlt (lt_irrefl _)
  · have hs := List.sorted_insertionSort NewDaemon.mountLe l
    rw [List.Sorted, List.pairwise_iff_get] at hs
    have hle := hs ⟨j, hj⟩ ⟨i, hi⟩ h
    exact absurd (lt_of_lt_of_le hlt hle) (lt_irrefl _)

theorem sortMounts_depth_ordered_witness :
    numParts ((NewDaemon.sortMounts [⟨"s1", "/a/b", true, false⟩,
        ⟨"s2", "/c", true, false⟩]).get ⟨0, by decide⟩).Destination <
      numParts ((NewDaemon.sortMounts [⟨"s1", "/a/b", true, false⟩,
        ⟨"s2", "/c", true, false⟩]).get ⟨1, by decide⟩).Destination ∧
    (0 : Nat) < 1 :=
  ⟨by decide,
    (sortMounts_depth_ordered [⟨"s1", "/a/b", true, false⟩,
      ⟨"s2", "/c", true, false⟩]).2.2 0 1 (by decide) (by decide) (by decide)⟩

/-- Claim C5, counterexample to the claim as stated: the legacy `setupMounts`
(daemon/volumes.go) hands the runtime the volumes in lexicographic
destination order — here `/a/z` (3 components) before `/b` (2 components) —
which is not sorted by component count, so this parent-before-child ordering
claim fails on that generation. -/
theorem setupMounts_legacy_not_depth_sorted :
    (LegacyDaemon.setupMounts [("/a/z", "s1"), ("/b", "s2")] [] "" "" "").map
        (fun m => numParts m.Destination) = [3, 2] ∧
    ¬ List.Sorted NewDaemon.mountLe
        (LegacyDaemon.setupMounts [("/a/z", "s1"), ("/b", "s2")] [] "" "" "") := by
  constructor
  · rfl
  · decide

/-! ## Claim C6 -/

/-- Claim C6 (amended): in the legacy `createVolumes` resolver, the entry the
volumes-from phase inserts for a peer mount at destination `d` is the peer's
last mount at `d` with `writable := peer.writable && (mode == "rw")`, so a
read-only peer mount never becomes writable there.  (In `registerMountPoints`
the cloned flag is `mode != "ro"` alone, discarding the peer's flag; see the
counterexample.) -/
theorem volumesFrom_writable_conjunction
    (getContainer : String → Option LegacyDaemon.PeerContainer)
    (volExists : String → Bool) (spec cID mode : String)
    (c : LegacyDaemon.PeerContainer)
    (mounts : List (String × LegacyDaemon.VolumeMount)) (d : String)
    (hparse : parseVolumesFromSpec spec = .ok (cID, mode))
    (hc : getContainer cID = some c) :
    LegacyDaemon.applyVolumesFrom getContainer volExists [] [spec] mounts =
      .ok (LegacyDaemon.applyPeerMounts cID mode
        (LegacyDaemon.volumeMounts volExists c) mounts) ∧
    alLookup d (LegacyDaemon.applyPeerMounts cID mode
        (LegacyDaemon.volumeMounts volExists c) mounts) =
      ((LegacyDaemon.volumeMounts volExists c).reverse.find?
          (fun m => m.toPath == d)).elim (alLookup d mounts)
        (fun pm => some (LegacyDaemon.applyPeerMount cID mode pm)) ∧
    ∀ pm : LegacyDaemon.VolumeMount, pm.writable = false →
      (LegacyDaemon.applyPeerMount cID mode pm).writable = false := by
  refine ⟨?_, ?_, ?_⟩
  · simp [LegacyDaemon.applyVolumesFrom, hparse, hc]
  · have h := alLookup_foldl_alInsert
      (fun m : LegacyDaemon.VolumeMount => m.toPath)
      (LegacyDaemon.applyPeerMount cID mode)
      (LegacyDaemon.volumeMounts volExists c) mounts d
    cases hf : (LegacyDaemon.volumeMounts volExists c).reverse.find?
        (fun m => m.toPath == d) with
    | some pm =>
      rw [hf] at h
      simpa [LegacyDaemon.applyPeerMounts, hf] using h
    | none =>
      rw [hf] at h
      simpa [LegacyDaemon.applyPeerMounts, hf] using h
  · intro pm h
    simp [LegacyDaemon.applyPeerMount, h]

theorem volumesFrom_writable_conjunction_witness :
    LegacyDaemon.applyVolumesFrom
        (fun id => if id = "peer" then
          some (⟨[("/tmp", "/ph")], [("/tmp", false)]⟩ : LegacyDaemon.PeerContainer)
          else none)
        (fun _ => true) [] ["peer"] [] =
      .ok (LegacyDaemon.applyPeerMounts "peer" "rw"
        (LegacyDaemon.volumeMounts (fun _ => true)
          ⟨[("/tmp", "/ph")], [("/tmp", false)]⟩) []) ∧
    alLookup "/tmp" (LegacyDaemon.applyPeerMounts "peer" "rw"
        (LegacyDaemon.volumeMounts (fun _ => true)
          ⟨[("/tmp", "/ph")], [("/tmp", false)]⟩) []) =
      ((LegacyDaemon.volumeMounts (fun _ => true)
          ⟨[("/tmp", "/ph")], [("/tmp", false)]⟩).reverse.find?
          (fun m => m.toPath == "/tmp")).elim
        (alLookup "/tmp" ([] : List (String × LegacyDaemon.VolumeMount)))
        (fun pm => some (LegacyDaemon.applyPeerMount "peer" "rw" pm)) ∧
    (LegacyDaemon.applyPeerMount "peer" "rw"
      ⟨"/tmp", "/ph", false, false, ""⟩).writable = false := by
  have h := volumesFrom_writable_conjunction
    (fun id => if id = "peer" then
      some (⟨[("/tmp", "/ph")], [("/tmp", false)]⟩ : LegacyDaemon.PeerContainer)
      else none)
    (fun _ => true) "peer" "peer" "rw"
    ⟨[("/tmp", "/ph")], [("/tmp", false)]⟩ [] "/tmp" rfl (by decide)
  exact ⟨h.1, h.2.1, h.2.2 ⟨"/tmp", "/ph", false, false, ""⟩ rfl⟩

/-- Claim C6, counterexample to the claim as stated: in `registerMountPoints`
(part_004) a peer mount at `/data` with `RW = false`, inherited with the
default mode `rw`, is cloned with `RW = mode != "ro" = true` — the read-only
peer mount becomes writable, while the claimed conjunction
`peer.writable AND (mode == "rw")` is `false`. -/
theorem registerMountPoints_readonly_peer_becomes_writable :
    NewDaemon.registerMountPoints
        (fun id => if id = "peer" then
          some (⟨[("/data", ⟨"pv", "/data", "local", false, none, ""⟩)], "local"⟩ :
            NewDaemon.Container)
          else none)
        (fun _ _ => some 7) ⟨[], "local"⟩ ["peer"] [] =
      .ok [("/data", ⟨"pv", "/data", "local", true, some 7, ""⟩)] ∧
    (false && ("rw" = "rw" : Bool)) = false := by
  constructor
  · rfl
  · rfl

/-! ## Claim C8 -/

theorem getIter_cached (rpc : String → Except String (List String))
    (registry : String → Option PluginsPkg.Plugin) (name : String)
    (q : PluginsPkg.Plugin) (k : Nat) :
    ∀ st : PluginsPkg.PState, alLookup name st.active = some q →
      PluginsAlt.getIter rpc registry name k st = (st, List.replicate k (.ok q)) := by
  induction k with
  | zero => intro st _; simp [PluginsAlt.getIter]
  | succ n ih =>
    intro st h
    simp [PluginsAlt.getIter, PluginsAlt.get, h, ih st h, List.replicate_succ]

/-- Claim C8 (amended): because `Plugin.Activate` and part_012's `get` hold
their mutex for their whole body, concurrent requests serialize; any number of
repeated `get` requests for one name issue exactly one `Plugin.Activate` RPC
and every caller receives the winning activation's plugin.  However a direct
second `Plugin.Activate` call on the already-active plugin fails with
`Plugin already activated` (issuing no further RPC) rather than succeeding
idempotently — see the counterexample. -/
theorem pluginsAlt_get_single_rpc
    (rpc : String → Except String (List String))
    (registry : String → Option PluginsPkg.Plugin) (st0 : PluginsPkg.PState)
    (name addr : String) (man0 man : List String)
    (hmiss : alLookup name st0.active = none)
    (hreg : registry name = some ⟨name, addr, man0⟩)
    (hrpc : rpc addr = .ok man) (k : Nat) :
    (PluginsAlt.getIter rpc registry name (k + 1) st0).1.rpcCount =
      st0.rpcCount + 1 ∧
    (PluginsAlt.getIter rpc registry name (k + 1) st0).2 =
      List.replicate (k + 1) (.ok ⟨name, addr, man⟩) ∧
    PluginsPkg.Activate rpc (PluginsAlt.getIter rpc registry name (k + 1) st0).1
        ⟨name, addr, man⟩ =
      ((PluginsAlt.getIter rpc registry name (k + 1) st0).1,
        .error "Plugin already activated") := by
  have hget : PluginsAlt.get rpc registry st0 name =
      (⟨alInsert name ⟨name, addr, man⟩ st0.active,
        st0.rpcCount + 1⟩, .ok ⟨name, addr, man⟩) := by
    simp [PluginsAlt.get, hmiss, hreg, hrpc]
  have hcache : alLookup name
      (alInsert name (⟨name, addr, man⟩ : PluginsPkg.Plugin) st0.active) =
      some ⟨name, addr, man⟩ := alLookup_alInsert_self _ _ _
  have hrest := getIter_cached rpc registry name ⟨name, addr, man⟩ k
    ⟨alInsert name ⟨name, addr, man⟩ st0.active, st0.rpcCount + 1⟩ hcache
  have hiter : PluginsAlt.getIter rpc registry name (k + 1) st0 =
      (⟨alInsert name ⟨name, addr, man⟩ st0.active, st0.rpcCount + 1⟩,
        List.replicate (k + 1) (.ok ⟨name, addr, man⟩)) := by
    simp [PluginsAlt.getIter, hget, hrest, List.replicate_succ]
  rw [hiter]
  refine ⟨rfl, rfl, ?_⟩
  simp [PluginsPkg.Activate, hcache]

theorem pluginsAlt_get_single_rpc_witness :
    (PluginsAlt.getIter (fun _ => .ok ["VolumeDriver"])
        (fun n => if n = "p" then some ⟨"p", "/run/p.sock", []⟩ else none)
        "p" 3 ⟨[], 0⟩).1.rpcCount = 0 + 1 ∧
    (PluginsAlt.getIter (fun _ => .ok ["VolumeDriver"])
        (fun n => if n = "p" then some ⟨"p", "/run/p.sock", []⟩ else none)
        "p" 3 ⟨[], 0⟩).2 =
      List.replicate 3 (.ok ⟨"p", "/run/p.sock", ["VolumeDriver"]⟩) ∧
    PluginsPkg.Activate (fun _ => .ok ["VolumeDriver"])
        (PluginsAlt.getIter (fun _ => .ok ["VolumeDriver"])
          (fun n => if n = "p" then some ⟨"p", "/run/p.sock", []⟩ else none)
          "p" 3 ⟨[], 0⟩).1
        ⟨"p", "/run/p.sock", ["VolumeDriver"]⟩ =
      ((PluginsAlt.getIter (fun _ => .ok ["VolumeDriver"])
          (fun n => if n = "p" then some ⟨"p", "/run/p.sock", []⟩ else none)
          "p" 3 ⟨[], 0⟩).1, .error "Plugin already activated") :=
  pluginsAlt_get_single_rpc (fun _ => .ok ["VolumeDriver"])
    (fun n => if n = "p" then some ⟨"p", "/run/p.sock", []⟩ else none)
    ⟨[], 0⟩ "p" "/run/p.sock" [] ["VolumeDriver"] rfl (by decide) rfl 2

/-- Claim C8, counterexample to the claim as stated: after a successful
activation of plugin `p`, a second `Plugin.Activate` for the same name fails
with `Plugin already activated` — a second activation of an already-active
plugin does fail in `plugins/plugins.go`. -/
theorem activate_already_active_fails :
    (PluginsPkg.Activate (fun _ => .ok ["VolumeDriver"])
        (PluginsPkg.Activate (fun _ => .ok ["VolumeDriver"]) ⟨[], 0⟩
          ⟨"p", "/run/p.sock", []⟩).1
        ⟨"p", "/run/p.sock", []⟩).2 = .error "Plugin already activated" ∧
    (PluginsPkg.Activate (fun _ => .ok ["VolumeDriver"]) ⟨[], 0⟩
        ⟨"p", "/run/p.sock", []⟩).2 =
      .ok ⟨"p", "/run/p.sock", ["VolumeDriver"]⟩ := by
  constructor <;> rfl

/-! ## Claim C1 -/

theorem except_bind_ok {ε α β : Type} (a : α) (f : α → Except ε β) :
    (Except.ok a >>= f) = f a := rfl

theorem except_bind_error {ε α β : Type} (e : ε) (f : α → Except ε β) :
    ((Except.error e : Except ε α) >>= f) = Except.error e := rfl

theorem except_pure {ε α : Type} (a : α) : (pure a : Except ε α) = Except.ok a := rfl

theorem resolveBind_destination
    (cv : String → String → Option Nat) (vd spec : String)
    (pb rbind : NewDaemon.MountPoint)
    (hp : NewDaemon.parseBindMount vd spec = .ok pb)
    (hr : NewDaemon.resolveBind cv vd spec = .ok rbind) :
    rbind.Destination = pb.Destination := by
  unfold NewDaemon.resolveBind at hr
  rw [hp, except_bind_ok] at hr
  by_cases hname : pb.Name.length > 0 ∧ pb.Driver.length > 0
  · rw [if_pos hname] at hr
    cases hcv : cv pb.Name pb.Driver with
    | none => rw [hcv] at hr; cases hr
    | some v =>
      rw [hcv] at hr
      cases hr
      rfl
  · rw [if_neg hname] at hr
    cases hr
    rfl

theorem resolveBind_total
    (cv : String → String → Option Nat) (vd spec : String)
    (pb : NewDaemon.MountPoint)
    (hp : NewDaemon.parseBindMount vd spec = .ok pb)
    (hcv : ∀ n d, (cv n d).isSome) :
    ∃ rbind, NewDaemon.resolveBind cv vd spec = .ok rbind := by
  unfold NewDaemon.resolveBind
  rw [hp, except_bind_ok]
  by_cases hname : pb.Name.length > 0 ∧ pb.Driver.length > 0
  · rw [if_pos hname]
    cases hcvv : cv pb.Name pb.Driver with
    | none => exact absurd (hcvv ▸ hcv pb.Name pb.Driver) (by simp)
    | some v => exact ⟨_, rfl⟩
  · rw [if_neg hname]
    exact ⟨pb, rfl⟩

theorem applyBinds_frozen
    (cv : String → String → Option Nat) (vd : String) (binds : List String) :
    ∀ (seen : List String) (mp : List (String × NewDaemon.MountPoint))
      (out : List String × List (String × NewDaemon.MountPoint)),
      NewDaemon.applyBinds cv vd binds seen mp = .ok out →
      ∀ d ∈ seen, alLookup d out.2 = alLookup d mp := by
  induction binds with
  | nil =>
    intro seen mp out hok d _
    simp only [NewDaemon.applyBinds] at hok
    cases hok
    rfl
  | cons b rest ih =>
    intro seen mp out hok d hd
    simp only [NewDaemon.applyBinds] at hok
    cases hpb : NewDaemon.parseBindMount vd b with
    | error e => simp [hpb] at hok
    | ok pb =>
      simp only [hpb] at hok
      by_cases hmem : pb.Destination ∈ seen
      · rw [if_pos hmem] at hok
        cases hok
      · rw [if_neg hmem] at hok
        cases hrb : NewDaemon.resolveBind cv vd b with
        | error e => simp [hrb] at hok
        | ok rb =>
          simp only [hrb] at hok
          have hne : rb.Destination ≠ d := by
            rw [resolveBind_destination cv vd b pb rb hpb hrb]
            exact fun he => hmem (he ▸ hd)
          rw [ih (pb.Destination :: seen) (alInsert rb.Destination rb mp) out hok d
            (List.mem_cons_of_mem _ hd)]
          exact alLookup_alInsert_ne hne rb mp

theorem applyBinds_lookup
    (cv : String → String → Option Nat) (vd : String) (binds : List String) :
    ∀ (seen : List String) (mp : List (String × NewDaemon.MountPoint))
      (out : List String × List (String × NewDaemon.MountPoint))
      (spec : String) (bind : NewDaemon.MountPoint),
      NewDaemon.applyBinds cv vd binds seen mp = .ok out →
      spec ∈ binds →
      NewDaemon.resolveBind cv vd spec = .ok bind →
      alLookup bind.Destination out.2 = some bind := by
  induction binds with
  | nil => intro seen mp out spec bind _ hmem; cases hmem
  | cons b rest ih =>
    intro seen mp out spec bind hok hmem hbind
    simp only [NewDaemon.applyBinds] at hok
    cases hpb : NewDaemon.parseBindMount vd b with
    | error e => simp [hpb] at hok
    | ok pb =>
      simp only [hpb] at hok
      by_cases hdmem : pb.Destination ∈ seen
      · rw [if_pos hdmem] at hok
        cases hok
      · rw [if_neg hdmem] at hok
        cases hrb : NewDaemon.resolveBind cv vd b with
        | error e => simp [hrb] at hok
        | ok rb =>
          simp only [hrb] at hok
          rcases List.mem_cons.mp hmem with he | hmemr
          · subst he
            have hbr : rb = bind := by
              rw [hrb] at hbind
              cases hbind
              rfl
            subst hbr
            have hdd : rb.Destination = pb.Destination :=
              resolveBind_destination cv vd spec pb rb hpb hrb
            rw [applyBinds_frozen cv vd rest (pb.Destination :: seen)
              (alInsert rb.Destination rb mp) out hok rb.Destination
              (hdd ▸ List.mem_cons_self _ _)]
            exact alLookup_alInsert_self _ _ _
          · exact ih (pb.Destination :: seen) (alInsert rb.Destination rb mp) out
              spec bind hok hmemr hbind

/-- Claim C1 (amended): in `registerMountPoints` (part_004) — whose result
replaces the container's mount-point set — whenever resolution succeeds, the
entry at the destination of any `Binds` entry is the one built from that
`Binds` entry, for every order of the `Binds` and `VolumesFrom` lists (binds
are applied after all peer mounts and a destination can appear only once in
`Binds`).  In the legacy `createVolumes` resolver the opposite holds: the
volumes-from phase runs last and overwrites the bind (see the
counterexample). -/
theorem registerMountPoints_binds_override
    (getC : String → Option NewDaemon.Container)
    (cv : String → String → Option Nat) (container : NewDaemon.Container)
    (vfrom binds : List String)
    (result : List (String × NewDaemon.MountPoint))
    (spec : String) (bind : NewDaemon.MountPoint)
    (hok : NewDaemon.registerMountPoints getC cv container vfrom binds = .ok result)
    (hmem : spec ∈ binds)
    (hbind : NewDaemon.resolveBind cv container.VolumeDriver spec = .ok bind) :
    alLookup bind.Destination result = some bind := by
  unfold NewDaemon.registerMountPoints at hok
  cases happ : NewDaemon.applyVolumesFrom getC cv vfrom container.MountPoints with
  | error e => rw [happ, except_bind_error] at hok; cases hok
  | ok mp1 =>
    rw [happ, except_bind_ok] at hok
    cases hab : NewDaemon.applyBinds cv container.VolumeDriver binds [] mp1 with
    | error e => rw [hab, except_bind_error] at hok; cases hok
    | ok acc =>
      rw [hab, except_bind_ok] at hok
      cases hok
      exact applyBinds_lookup cv container.VolumeDriver binds [] mp1 acc spec bind
        hab hmem hbind

theorem registerMountPoints_binds_override_witness :
    alLookup "/tmp"
        [(("/tmp", ⟨"", "/tmp", "", true, none, "/host"⟩) :
          String × NewDaemon.MountPoint)] =
      some ⟨"", "/tmp", "", true, none, "/host"⟩ :=
  registerMountPoints_binds_override
    (fun id => if id = "peer" then
      some (⟨[("/tmp", ⟨"pv", "/tmp", "local", false, none, ""⟩)], "local"⟩ :
        NewDaemon.Container)
      else none)
    (fun _ _ => some 7) ⟨[], "local"⟩ ["peer"] ["/host:/tmp"]
    [("/tmp", ⟨"", "/tmp", "", true, none, "/host"⟩)] "/host:/tmp"
    ⟨"", "/tmp", "", true, none, "/host"⟩ rfl (by decide) rfl

/-- Claim C1, counterexample to the claim as stated: in the legacy
`createVolumes` resolver (daemon/volumes.go) the volumes-from phase runs after
the binds phase, so with `Binds = ["/host:/tmp"]` and a peer owning a mount at
`/tmp`, the resolved entry at `/tmp` is the peer's mount (source `/peerhost`),
not the bind's (`/host`). -/
theorem createVolumes_volumesFrom_overrides_bind :
    LegacyDaemon.createVolumesMounts (fun _ => none) []
        (fun id => if id = "peer" then
          some (⟨[("/tmp", "/peerhost")], [("/tmp", true)]⟩ :
            LegacyDaemon.PeerContainer)
          else none)
        (fun _ => true) [] [] ["/host:/tmp"] ["peer"] =
      .ok [("/tmp", ⟨"/tmp", "/peerhost", true, false, "peer"⟩)] ∧
    ("/peerhost" : String) ≠ "/host" := by
  constructor
  · rfl
  · decide

/-! ## Claim C4 -/

theorem applyBinds_ok_or_dup
    (cv : String → String → Option Nat) (vd : String) (binds : List String) :
    ∀ (seen : List String) (mp : List (String × NewDaemon.MountPoint)),
      (∀ spec ∈ binds, ∃ b, NewDaemon.parseBindMount vd spec = .ok b) →
      (∀ n d, (cv n d).isSome) →
      (∃ out, NewDaemon.applyBinds cv vd binds seen mp = .ok out ∧
        (binds.map (NewDaemon.bindDest vd)).Nodup ∧
        ∀ d ∈ binds.map (NewDaemon.bindDest vd), d ∉ seen) ∨
      (∃ d, NewDaemon.applyBinds cv vd binds seen mp =
        .error (.duplicateBind d)) := by
  induction binds with
  | nil =>
    intro seen mp _ _
    left
    exact ⟨(seen, mp), rfl, by simp, by simp⟩
  | cons b rest ih =>
    intro seen mp hparse hcv
    obtain ⟨pb, hpb⟩ := hparse b (List.mem_cons_self _ _)
    have hdest : NewDaemon.bindDest vd b = pb.Destination := by
      simp [NewDaemon.bindDest, hpb]
    by_cases hmem : pb.Destination ∈ seen
    · right
      refine ⟨pb.Destination, ?_⟩
      simp only [NewDaemon.applyBinds, hpb, if_pos hmem]
    · obtain ⟨rb, hrb⟩ := resolveBind_total cv vd b pb hpb hcv
      have hstep : NewDaemon.applyBinds cv vd (b :: rest) seen mp =
          NewDaemon.applyBinds cv vd rest (pb.Destination :: seen)
            (alInsert rb.Destination rb mp) := by
        simp only [NewDaemon.applyBinds, hpb, if_neg hmem, hrb]
      rcases ih (pb.Destination :: seen) (alInsert rb.Destination rb mp)
          (fun s hs => hparse s (List.mem_cons_of_mem _ hs)) hcv with
        ⟨out, hout, hnodup, hnotin⟩ | ⟨d, herr⟩
      · left
        refine ⟨out, by rw [hstep]; exact hout, ?_, ?_⟩
        · rw [List.map_cons, List.nodup_cons]
          refine ⟨?_, hnodup⟩
          rw [hdest]
          intro hin
          exact (hnotin _ hin) (List.mem_cons_self _ _)
        · intro d hd
          rw [List.map_cons, List.mem_cons] at hd
          rcases hd with he | hin
          · rw [he, hdest]
            exact hmem
          · intro hseen
            exact (hnotin d hin) (List.mem_cons_of_mem _ hseen)
      · right
        exact ⟨d, by rw [hstep]; exact herr⟩

/-- Claim C4: when the volumes-from phase succeeds, every bind spec parses and
volume creation succeeds, a `Binds` list containing two entries with the same
cleaned destination makes `registerMountPoints` fail with the duplicate-bind
error; since `container.MountPoints` is only assigned from a fully successful
resolution (part_004 line 182 runs after all loops), the container's
mount-point set is untouched on this failure. -/
theorem registerMountPoints_duplicate_bind
    (getC : String → Option NewDaemon.Container)
    (cv : String → String → Option Nat) (container : NewDaemon.Container)
    (vfrom binds : List String) (mp1 : List (String × NewDaemon.MountPoint))
    (hvf : NewDaemon.applyVolumesFrom getC cv vfrom container.MountPoints = .ok mp1)
    (hparse : ∀ spec ∈ binds,
      ∃ b, NewDaemon.parseBindMount container.VolumeDriver spec = .ok b)
    (hcv : ∀ n d, (cv n d).isSome)
    (hdup : ¬ (binds.map (NewDaemon.bindDest container.VolumeDriver)).Nodup) :
    ∃ d, NewDaemon.registerMountPoints getC cv container vfrom binds =
      .error (.duplicateBind d) := by
  rcases applyBinds_ok_or_dup cv container.VolumeDriver binds [] mp1 hparse hcv with
    ⟨out, _, hnodup, _⟩ | ⟨d, herr⟩
  · exact absurd hnodup hdup
  · refine ⟨d, ?_⟩
    unfold NewDaemon.registerMountPoints
    rw [hvf, except_bind_ok, herr, except_bind_error]

theorem registerMountPoints_duplicate_bind_witness :
    ∃ d, NewDaemon.registerMountPoints (fun _ => none) (fun _ _ => some 0)
        ⟨[], "local"⟩ [] ["/a:/tmp", "/b:/tmp"] = .error (.duplicateBind d) :=
  registerMountPoints_duplicate_bind (fun _ => none) (fun _ _ => some 0)
    ⟨[], "local"⟩ [] ["/a:/tmp", "/b:/tmp"] [] rfl
    (by
      intro spec hs
      simp only [List.mem_cons, List.not_mem_nil, or_false] at hs
      rcases hs with rfl | rfl
      · exact ⟨_, rfl⟩
      · exact ⟨_, rfl⟩)
    (fun _ _ => rfl) (by decide)

/-! ## Claim C2 -/

theorem findOrCreate_cached
    (fs : String → Option String) (dp : Nat → String) (r : VolumesRepo.Repo)
    (p cid : String) (w : Bool) (v : VolumesRepo.Volume) (hne : p ≠ "")
    (h : VolumesRepo.rget fs r p = some v) :
    VolumesRepo.FindOrCreateVolume fs dp [] r p cid w = (r, v) := by
  unfold VolumesRepo.FindOrCreateVolume
  simp [hne, h]

theorem rget_after_findOrCreate
    (fs : String → Option String) (dp : Nat → String) (r : VolumesRepo.Repo)
    (p c cid : String) (w : Bool)
    (hp : filepathClean p = p) (hfsp : fs p = some c) (hfsc : fs c = some c)
    (hcc : filepathClean c = c) (hne : p ≠ "") :
    VolumesRepo.rget fs (VolumesRepo.FindOrCreateVolume fs dp [] r p cid w).1 p =
      some (VolumesRepo.FindOrCreateVolume fs dp [] r p cid w).2 := by
  unfold VolumesRepo.FindOrCreateVolume
  simp only [List.foldl_nil, if_neg hne]
  cases hr : VolumesRepo.rget fs r p with
  | some v => simpa using hr
  | none =>
    have hlookup : alLookup c r.volumes = none := by
      have h2 := hr
      unfold VolumesRepo.rget at h2
      simp only [hfsp, hcc] at h2
      exact h2
    simp [VolumesRepo.newVolume, VolumesRepo.add, VolumesRepo.rget, hne, hp,
      hfsp, hfsc, hcc, hlookup, alLookup_alInsert_self]

theorem add_keysNodup (fs : String → Option String) (r : VolumesRepo.Repo)
    (v : VolumesRepo.Volume) (h : keysNodup r.volumes) :
    keysNodup (VolumesRepo.add fs r v).volumes := by
  unfold VolumesRepo.add
  split
  · exact h
  · exact keysNodup_alInsert _ _ h

theorem newVolume_keysNodup (fs : String → Option String) (dp : Nat → String)
    (r : VolumesRepo.Repo) (path : String) (w : Bool) (h : keysNodup r.volumes) :
    keysNodup (VolumesRepo.newVolume fs dp r path w).1.volumes := by
  unfold VolumesRepo.newVolume
  exact add_keysNodup fs _ _ h

theorem findOrCreate_keysNodup
    (fs : String → Option String) (dp : Nat → String)
    (exts : List (String → String → String)) (r : VolumesRepo.Repo)
    (p cid : String) (w : Bool) (h : keysNodup r.volumes) :
    keysNodup (VolumesRepo.FindOrCreateVolume fs dp exts r p cid w).1.volumes := by
  simp only [VolumesRepo.FindOrCreateVolume]
  split
  · exact newVolume_keysNodup fs dp r _ w h
  · split
    · exact h
    · exact newVolume_keysNodup fs dp r _ w h

theorem seqCalls_cached
    (fs : String → Option String) (dp : Nat → String) (p : String)
    (v : VolumesRepo.Volume) :
    ∀ (ws : List Bool) (r : VolumesRepo.Repo), p ≠ "" →
      VolumesRepo.rget fs r p = some v →
      VolumesRepo.seqCalls fs dp p ws r = (r, List.replicate ws.length v) := by
  intro ws
  induction ws with
  | nil => intro r _ _; rfl
  | cons w ws ih =>
    intro r hne h
    simp only [VolumesRepo.seqCalls]
    rw [findOrCreate_cached fs dp r p "" w v hne h, ih r hne h]
    simp [List.replicate_succ]

/-- Claim C2 (amended): for a path that exists on the host (its symlink
resolution succeeds and is stable under cleaning and re-resolution), any
sequence of `FindOrCreateVolume` calls on it returns the very volume produced
by the first call, the repository afterwards is exactly the repository after
that first call, and — for any inputs — the map never holds two entries under
the same path key.  For a path that does not exist, every call returns a
fresh instance that replaces the previous entry at the same canonical path
(see the counterexample). -/
theorem findOrCreate_unique_stable
    (fs : String → Option String) (dp : Nat → String) (r : VolumesRepo.Repo)
    (p c : String) (w : Bool) (ws : List Bool)
    (hp : filepathClean p = p) (hfsp : fs p = some c) (hfsc : fs c = some c)
    (hcc : filepathClean c = c) (hne : p ≠ "") (hnd : keysNodup r.volumes) :
    VolumesRepo.seqCalls fs dp p (w :: ws) r =
      ((VolumesRepo.FindOrCreateVolume fs dp [] r p "" w).1,
        List.replicate (ws.length + 1)
          (VolumesRepo.FindOrCreateVolume fs dp [] r p "" w).2) ∧
    keysNodup (VolumesRepo.seqCalls fs dp p (w :: ws) r).1.volumes := by
  have hcache := rget_after_findOrCreate fs dp r p c "" w hp hfsp hfsc hcc hne
  have hseq : VolumesRepo.seqCalls fs dp p (w :: ws) r =
      ((VolumesRepo.FindOrCreateVolume fs dp [] r p "" w).1,
        List.replicate (ws.length + 1)
          (VolumesRepo.FindOrCreateVolume fs dp [] r p "" w).2) := by
    simp only [VolumesRepo.seqCalls]
    rw [seqCalls_cached fs dp p _ ws _ hne hcache]
    simp [List.replicate_succ]
  refine ⟨hseq, ?_⟩
  rw [hseq]
  exact findOrCreate_keysNodup fs dp [] r p "" w hnd

theorem findOrCreate_unique_stable_witness :
    VolumesRepo.seqCalls (fun s => if s = "/data" then some "/data" else none)
        (fun n => "/v" ++ toString n) "/data" [true, false] ⟨[], 0⟩ =
      ((VolumesRepo.FindOrCreateVolume
          (fun s => if s = "/data" then some "/data" else none)
          (fun n => "/v" ++ toString n) [] ⟨[], 0⟩ "/data" "" true).1,
        List.replicate 2
          (VolumesRepo.FindOrCreateVolume
            (fun s => if s = "/data" then some "/data" else none)
            (fun n => "/v" ++ toString n) [] ⟨[], 0⟩ "/data" "" true).2) ∧
    keysNodup (VolumesRepo.seqCalls
        (fun s => if s = "/data" then some "/data" else none)
        (fun n => "/v" ++ toString n) "/data" [true, false] ⟨[], 0⟩).1.volumes :=
  findOrCreate_unique_stable (fun s => if s = "/data" then some "/data" else none)
    (fun n => "/v" ++ toString n) ⟨[], 0⟩ "/data" "/data" true [false]
    (by decide) rfl rfl (by decide) (by decide) (by simp [keysNodup])

/-- Claim C2, counterexample to the claim as stated: two `FindOrCreateVolume`
calls on the path `/a`, which does not exist on the host (symlink resolution
fails, so the canonicalization rule falls back to the cleaned original for
both calls), return two distinct volume instances — the second call creates a
fresh volume (id 1) that replaces the first (id 0) under the same canonical
key, so not all calls with the same canonical path return the same
instance. -/
theorem findOrCreate_missing_path_fresh_instance :
    (VolumesRepo.seqCalls (fun _ => none) (fun n => "/v" ++ toString n) "/a"
        [true, true] ⟨[], 0⟩).2 =
      [⟨0, "/a", true, true, []⟩, ⟨1, "/a", true, true, []⟩] ∧
    (VolumesRepo.seqCalls (fun _ => none) (fun n => "/v" ++ toString n) "/a"
        [true, true] ⟨[], 0⟩).1.volumes = [("/a", ⟨1, "/a", true, true, []⟩)] ∧
    VolumesRepo.canonicalOf (fun _ => none) "/a" = "/a" ∧
    (⟨0, "/a", true, true, []⟩ : VolumesRepo.Volume) ≠ ⟨1, "/a", true, true, []⟩ := by
  refine ⟨rfl, rfl, rfl, by decide⟩

end DockerPlugins

